import Mathlib

/-!
Shallow embedding of the Pintos-style timer / MLFQS accounting code of this
repository (devices/timer.c, threads/fixed-point.h, threads/thread.h).

Machine integers are modelled as `Int` with explicit two's-complement
reduction (`toInt32`) wherever the C code computes in 32-bit `int`/`int32_t`;
C division (which truncates toward zero) is modelled by `Int.tdiv`.
The 64-bit tick counter is modelled as an unbounded `Int` (its claims never
approach 2^63).
-/

/- `#define TIMER_FREQ 100` (the default frequency, 100 Hz). -/
def TIMER_FREQ : Int := 100

/- `#define PRI_MIN 0` and `#define PRI_MAX 63` (threads/thread.h). -/
def PRI_MIN : Int := 0

def PRI_MAX : Int := 63

/- Two's-complement reduction of an unbounded integer into the range of a
32-bit signed `int`; C signed overflow is modelled as wrap-around. -/
def toInt32 (x : Int) : Int := (x + 2147483648) % 4294967296 - 2147483648

/- `#define FIXED_POINT_FACTOR 16384` (threads/fixed-point.h): 17.14 format. -/
def FIXED_POINT_FACTOR : Int := 16384

/- `#define convert_int_to_fixed_point(n) (n * FIXED_POINT_FACTOR)` -/
def convert_int_to_fixed_point (n : Int) : Int := toInt32 (n * FIXED_POINT_FACTOR)

/- `#define convert_fixed_point_to_int_round_towards_zero(x) (x / FIXED_POINT_FACTOR)` -/
def convert_fixed_point_to_int_round_towards_zero (x : Int) : Int :=
  Int.tdiv x FIXED_POINT_FACTOR

/- `#define convert_fixed_point_to_int_round_to_nearest(x)
      (x >= 0 ? (x + FACTOR/2) / FACTOR : (x - FACTOR/2) / FACTOR)`
The intermediate sum/difference is a 32-bit `int` computation, hence wraps. -/
def convert_fixed_point_to_int_round_to_nearest (x : Int) : Int :=
  if 0 ≤ x then Int.tdiv (toInt32 (x + 8192)) FIXED_POINT_FACTOR
  else Int.tdiv (toInt32 (x - 8192)) FIXED_POINT_FACTOR

/- `#define add_fixed_point_numbers(a, b) (a + b)` -/
def add_fixed_point_numbers (a b : Int) : Int := toInt32 (a + b)

/- `#define subtract_fixed_point_numbers(a, b) (a - b)` -/
def subtract_fixed_point_numbers (a b : Int) : Int := toInt32 (a - b)

/- `#define add_int_to_fixed_point_number(x, n) (x + convert_int_to_fixed_point(n))` -/
def add_int_to_fixed_point_number (x n : Int) : Int :=
  toInt32 (x + convert_int_to_fixed_point n)

/- `#define multiply_fixed_point_numbers(a, b)
      ((int32_t) (((int64_t)a) * b / FIXED_POINT_FACTOR))`
The product is exact in 64 bits; the quotient is truncated toward zero and
then cast back to 32 bits. -/
def multiply_fixed_point_numbers (a b : Int) : Int :=
  toInt32 (Int.tdiv (a * b) FIXED_POINT_FACTOR)

/- `#define divide_fixed_point_numbers(a, b)
      ((int32_t) (((int64_t)a) * FIXED_POINT_FACTOR / b))` -/
def divide_fixed_point_numbers (a b : Int) : Int :=
  toInt32 (Int.tdiv (a * FIXED_POINT_FACTOR) b)

/- `#define multiply_fixed_point_number_by_int(x, n) (x * n)` (32-bit). -/
def multiply_fixed_point_number_by_int (x n : Int) : Int := toInt32 (x * n)

/- `#define divide_fixed_point_number_by_int(x, n) (x / n)` (32-bit). -/
def divide_fixed_point_number_by_int (x n : Int) : Int := Int.tdiv x n

/- `enum thread_status` (threads/thread.h). -/
inductive TStatus where
  | running
  | ready
  | blocked
  | dying
deriving DecidableEq, Repr

/- The fields of `struct thread` that the timer code reads or writes:
`status`, `priority`, `nice` and `recent_cpu`, keyed by `tid`. -/
structure Thread where
  tid : Nat
  status : TStatus
  priority : Int
  nice : Int
  recent_cpu : Int
deriving DecidableEq, Repr

/- `struct sleeping_thread`: the sleeping thread (identified by tid) and its
absolute release tick `ticks_till_release`. -/
structure SleepRec where
  tid : Nat
  wake : Int
deriving DecidableEq, Repr

/- The global state the timer code touches: the tick counter `ticks`, the
`sleeping_threads` list, `LOAD_AVG`, the all-threads list, the running
thread, the idle thread and the interrupt level.  `mlfqs` models the
`thread_mlfqs` command-line flag (declared in threads/thread.h; the timer
code never reads it). -/
structure KState where
  ticks : Int
  load_avg : Int
  mlfqs : Bool
  intr_on : Bool
  current : Nat
  idle_tid : Nat
  threads : List Thread
  sleep : List SleepRec
deriving DecidableEq, Repr

/- `order_sleeping_threads`: strict comparison on `ticks_till_release`,
used as comparator of `list_insert_ordered`. -/
def order_sleeping_threads (a b : SleepRec) : Bool := a.wake < b.wake

/- Pintos `list_insert_ordered` with comparator `order_sleeping_threads`:
insert `r` before the first element `a` with `order_sleeping_threads r a`. -/
def list_insert_ordered (r : SleepRec) : List SleepRec → List SleepRec
  | [] => [r]
  | a :: l => if order_sleeping_threads r a then r :: a :: l
              else a :: list_insert_ordered r l

/- `timer_sleep` (devices/timer.c, lines 125-148).  The C function:
reads `start = timer_ticks()`, asserts interrupts on, builds the record
`(current thread, start + ticks)`, disables interrupts, inserts the record
into `sleeping_threads` in sorted order, blocks the current thread, and
finally restores the saved interrupt level.  There is no test on the sign
of the argument.  Scheduling after `thread_block` is abstracted away. -/
def timer_sleep (n : Int) (st : KState) : KState :=
  let start := st.ticks
  let rcd : SleepRec := ⟨st.current, start + n⟩
  let old_level := st.intr_on
  { st with
    sleep := list_insert_ordered rcd st.sleep,
    threads := st.threads.map fun th =>
      if th.tid = st.current then { th with status := TStatus.blocked } else th,
    intr_on := old_level }

/- The sleep-list walk of `timer_interrupt` (lines 245-259): from the front,
while `ticks_till_release ≤ ticks`, remove the record and unblock its
thread; stop at the first record still in the future.  Returns the
unblocked tids (in order) and the remaining list. -/
def drainSleep (t : Int) : List SleepRec → List Nat × List SleepRec
  | [] => ([], [])
  | r :: l =>
    if r.wake ≤ t then
      let p := drainSleep t l
      (r.tid :: p.1, p.2)
    else ([], r :: l)

/- `thread_unblock` applied to every drained tid: status becomes READY. -/
def setReady (woken : List Nat) (ts : List Thread) : List Thread :=
  ts.map fun th =>
    if th.tid ∈ woken then { th with status := TStatus.ready } else th

/- `count_running_or_ready_threads1` via `check_thread_status1`: count the
threads that are not the idle thread and are RUNNING or READY. -/
def count_running_or_ready_threads1 (idle : Nat) (ts : List Thread) : Int :=
  ts.foldl
    (fun c th =>
      if th.tid ≠ idle ∧ (th.status = TStatus.running ∨ th.status = TStatus.ready)
      then c + 1 else c)
    0

/- `calculate_load_avg1` (lines 306-324), with the ready count passed in:
`(59/60)*LOAD_AVG + (1/60)*ready`, each part in 17.14 fixed point. -/
def calculate_load_avg1 (ready : Int) (la : Int) : Int :=
  let fifty_nine_fp := convert_int_to_fixed_point 59
  let sixty_fp := convert_int_to_fixed_point 60
  let part1 := divide_fixed_point_numbers fifty_nine_fp sixty_fp
  let part1_divided := multiply_fixed_point_numbers part1 la
  let part2 := divide_fixed_point_numbers (convert_int_to_fixed_point 1) sixty_fp
  let part2_mul := multiply_fixed_point_number_by_int part2 ready
  add_fixed_point_numbers part1_divided part2_mul

/- `update_recent_cpu_for_all_threads` (lines 327-341): for every thread in
the all-list, `recent_cpu := (2*LOAD_AVG)/(2*LOAD_AVG + 1)*recent_cpu + nice`
in fixed point.  No thread, not even idle, is skipped. -/
def update_recent_cpu_for_all_threads (la : Int) (ts : List Thread) : List Thread :=
  ts.map fun th =>
    let load_avg_times_two := multiply_fixed_point_numbers la (convert_int_to_fixed_point 2)
    let denominator := add_fixed_point_numbers load_avg_times_two (convert_int_to_fixed_point 1)
    let ratio := divide_fixed_point_numbers load_avg_times_two denominator
    let product := multiply_fixed_point_numbers ratio th.recent_cpu
    { th with recent_cpu := add_int_to_fixed_point_number product th.nice }

/- Modelled from the spec: the body of `calculate_priority` (called by
`update_priority_for_all_threads`) is not in src; only the declaration and
doc comment of `thread_update_priority_mlfqs` (threads/thread.h, lines
215-225) are.  Per spec section 4.7: `priority := PRI_MAX - (recent_cpu/4)
- (nice*2)`, then clamp to `[PRI_MIN, PRI_MAX]`; `recent_cpu` is 17.14
fixed point, so the quotient is converted to an integer. -/
def calculate_priority (rc nice : Int) : Int :=
  let raw := PRI_MAX -
    convert_fixed_point_to_int_round_towards_zero (divide_fixed_point_number_by_int rc 4) -
    nice * 2
  max PRI_MIN (min PRI_MAX raw)

/- `update_priority_for_all_threads` (lines 263-274): every thread of the
all-list EXCEPT the idle thread gets a freshly computed priority. -/
def update_priority_for_all_threads (idle : Nat) (ts : List Thread) : List Thread :=
  ts.map fun th =>
    if th.tid = idle then th
    else { th with priority := calculate_priority th.recent_cpu th.nice }

/- Phase 1 of `timer_interrupt` (lines 228-232): increment `recent_cpu` of
the running thread by one (fixed point), unless it is the idle thread. -/
def bump_recent_cpu (st : KState) : List Thread :=
  if st.current = st.idle_tid then st.threads
  else st.threads.map fun th =>
    if th.tid = st.current
    then { th with recent_cpu := add_int_to_fixed_point_number th.recent_cpu 1 }
    else th

/- Phase 2a (lines 234-238): `update_load_avg()` when the incremented tick
count is a multiple of `TIMER_FREQ`; otherwise `LOAD_AVG` is unchanged. -/
def new_load_avg (st : KState) : Int :=
  if (st.ticks + 1) % TIMER_FREQ = 0 then
    calculate_load_avg1
      (count_running_or_ready_threads1 st.idle_tid (bump_recent_cpu st)) st.load_avg
  else st.load_avg

/- Phase 2b: `update_recent_cpu_for_all_threads()` in the same once-per-second
branch, reading the freshly stored `LOAD_AVG`. -/
def post_second_threads (st : KState) : List Thread :=
  if (st.ticks + 1) % TIMER_FREQ = 0 then
    update_recent_cpu_for_all_threads (new_load_avg st) (bump_recent_cpu st)
  else bump_recent_cpu st

/- Phase 3 (lines 240-243): `update_priority_for_all_threads()` whenever the
incremented tick count is a multiple of 4.  The source gates this on the
tick count only; `thread_mlfqs` is not consulted. -/
def post_priority_threads (st : KState) : List Thread :=
  if (st.ticks + 1) % 4 = 0 then
    update_priority_for_all_threads st.idle_tid (post_second_threads st)
  else post_second_threads st

/- `timer_interrupt` (lines 221-261): `ticks++`, CPU accounting, the two
scheduled recomputations, then the sleep-list drain with unblocking.
(`thread_tick()` touches no modelled state.) -/
def timer_interrupt (st : KState) : KState :=
  let t := st.ticks + 1
  let d := drainSleep t st.sleep
  { st with
    ticks := t,
    load_avg := new_load_avg st,
    threads := setReady d.1 (post_priority_threads st),
    sleep := d.2 }

/- `k` consecutive timer interrupts. -/
def runTicks : Nat → KState → KState
  | 0, st => st
  | k + 1, st => runTicks k (timer_interrupt st)

/- The spec's once-per-second load formula, written as the 17.14 fixed-point
expression `(59/60)*load_avg + (1/60)*ready_threads` (spec section 4.7),
for comparison with `calculate_load_avg1`. -/
def load_avg_spec (ready la : Int) : Int :=
  add_fixed_point_numbers
    (multiply_fixed_point_numbers
      (divide_fixed_point_numbers (convert_int_to_fixed_point 59)
        (convert_int_to_fixed_point 60)) la)
    (multiply_fixed_point_number_by_int
      (divide_fixed_point_numbers (convert_int_to_fixed_point 1)
        (convert_int_to_fixed_point 60)) ready)

/- The spec's once-per-second decay formula, written as the fixed-point
expression `(2*load_avg)/(2*load_avg + 1)*recent_cpu + nice` (spec section
4.7), for comparison with `update_recent_cpu_for_all_threads`. -/
def recent_cpu_spec (la rc nice : Int) : Int :=
  add_int_to_fixed_point_number
    (multiply_fixed_point_numbers
      (divide_fixed_point_numbers
        (multiply_fixed_point_numbers la (convert_int_to_fixed_point 2))
        (add_fixed_point_numbers
          (multiply_fixed_point_numbers la (convert_int_to_fixed_point 2))
          (convert_int_to_fixed_point 1)))
      rc)
    nice

/-!  Helper lemmas about the sleep-list operations. -/

/- Boolean sortedness of a sleep list by non-decreasing wake tick. -/
def sortedByWake : List SleepRec → Bool
  | a :: b :: l => (decide (a.wake ≤ b.wake)) && sortedByWake (b :: l)
  | _ => true

theorem sortedByWake_cons_cons (a b : SleepRec) (l : List SleepRec) :
    sortedByWake (a :: b :: l) = ((decide (a.wake ≤ b.wake)) && sortedByWake (b :: l)) := rfl

theorem sortedByWake_tail {a : SleepRec} {l : List SleepRec}
    (h : sortedByWake (a :: l) = true) : sortedByWake l = true := by
  cases l with
  | nil => rfl
  | cons b l =>
    rw [sortedByWake_cons_cons, Bool.and_eq_true] at h
    exact h.2

theorem order_true_of_lt {r b : SleepRec} (h : r.wake < b.wake) :
    order_sleeping_threads r b = true := by
  simp [order_sleeping_threads, h]

theorem order_false_of_le {r b : SleepRec} (h : b.wake ≤ r.wake) :
    order_sleeping_threads r b = false := by
  simp [order_sleeping_threads, not_lt.mpr h]

theorem insert_of_lt {r b : SleepRec} {l : List SleepRec} (h : r.wake < b.wake) :
    list_insert_ordered r (b :: l) = r :: b :: l := by
  simp only [list_insert_ordered]
  rw [if_pos (order_true_of_lt h)]

theorem insert_of_le {r b : SleepRec} {l : List SleepRec} (h : b.wake ≤ r.wake) :
    list_insert_ordered r (b :: l) = b :: list_insert_ordered r l := by
  simp only [list_insert_ordered]
  rw [if_neg (by rw [order_false_of_le h]; exact Bool.false_ne_true)]

theorem insert_cons_sorted : ∀ (l : List SleepRec) (a r : SleepRec),
    sortedByWake (a :: l) = true → a.wake ≤ r.wake →
    sortedByWake (a :: list_insert_ordered r l) = true := by
  intro l
  induction l with
  | nil =>
    intro a r _ har
    simp [list_insert_ordered, sortedByWake_cons_cons, sortedByWake, har]
  | cons b l ih =>
    intro a r h har
    rw [sortedByWake_cons_cons, Bool.and_eq_true, decide_eq_true_eq] at h
    by_cases hrb : r.wake < b.wake
    · rw [insert_of_lt hrb, sortedByWake_cons_cons, Bool.and_eq_true, decide_eq_true_eq]
      refine ⟨har, ?_⟩
      rw [sortedByWake_cons_cons, Bool.and_eq_true, decide_eq_true_eq]
      exact ⟨le_of_lt hrb, h.2⟩
    · rw [insert_of_le (not_lt.mp hrb), sortedByWake_cons_cons, Bool.and_eq_true,
        decide_eq_true_eq]
      exact ⟨h.1, ih b r h.2 (not_lt.mp hrb)⟩

theorem insert_sorted {l : List SleepRec} (r : SleepRec)
    (h : sortedByWake l = true) : sortedByWake (list_insert_ordered r l) = true := by
  cases l with
  | nil => rfl
  | cons a l =>
    by_cases hra : r.wake < a.wake
    · rw [insert_of_lt hra, sortedByWake_cons_cons, Bool.and_eq_true, decide_eq_true_eq]
      exact ⟨le_of_lt hra, h⟩
    · rw [insert_of_le (not_lt.mp hra)]
      exact insert_cons_sorted l a r h (not_lt.mp hra)

theorem insert_eq_take_drop : ∀ (l : List SleepRec) (r : SleepRec),
    list_insert_ordered r l =
      l.takeWhile (fun a => decide (a.wake ≤ r.wake)) ++
        r :: l.dropWhile (fun a => decide (a.wake ≤ r.wake)) := by
  intro l
  induction l with
  | nil => intro r; rfl
  | cons a l ih =>
    intro r
    by_cases hra : r.wake < a.wake
    · have hna : ¬ a.wake ≤ r.wake := not_le.mpr hra
      rw [insert_of_lt hra]
      simp [List.takeWhile, List.dropWhile, hna]
    · have ha : a.wake ≤ r.wake := not_lt.mp hra
      rw [insert_of_le ha]
      simp [List.takeWhile, List.dropWhile, ha, ih r]

theorem mem_insert_self : ∀ (l : List SleepRec) (r : SleepRec),
    r ∈ list_insert_ordered r l := by
  intro l
  induction l with
  | nil => intro r; exact List.mem_singleton.mpr rfl
  | cons a l ih =>
    intro r
    by_cases hra : r.wake < a.wake
    · rw [insert_of_lt hra]; exact List.mem_cons_self r (a :: l)
    · rw [insert_of_le (not_lt.mp hra)]
      exact List.mem_cons_of_mem a (ih r)

theorem mem_of_mem_insert : ∀ {l : List SleepRec} {r x : SleepRec},
    x ∈ list_insert_ordered r l → x = r ∨ x ∈ l := by
  intro l
  induction l with
  | nil =>
    intro r x hx
    exact Or.inl (List.mem_singleton.mp hx)
  | cons a l ih =>
    intro r x hx
    by_cases hra : r.wake < a.wake
    · rw [insert_of_lt hra] at hx
      rcases List.mem_cons.mp hx with h1 | h2
      · exact Or.inl h1
      · exact Or.inr h2
    · rw [insert_of_le (not_lt.mp hra)] at hx
      rcases List.mem_cons.mp hx with h1 | h2
      · exact Or.inr (List.mem_cons.mpr (Or.inl h1))
      · rcases ih h2 with h3 | h4
        · exact Or.inl h3
        · exact Or.inr (List.mem_cons_of_mem a h4)

theorem drainSleep_eq : ∀ (l : List SleepRec) (t : Int),
    drainSleep t l =
      ((l.takeWhile (fun r => decide (r.wake ≤ t))).map (fun r => r.tid),
        l.dropWhile (fun r => decide (r.wake ≤ t))) := by
  intro l
  induction l with
  | nil => intro t; rfl
  | cons r l ih =>
    intro t
    by_cases h : r.wake ≤ t
    · simp [drainSleep, h, List.takeWhile, List.dropWhile, ih t]
    · simp [drainSleep, h, List.takeWhile, List.dropWhile]

theorem mem_of_mem_dropWhile {p : SleepRec → Bool} :
    ∀ {l : List SleepRec} {x : SleepRec}, x ∈ l.dropWhile p → x ∈ l := by
  intro l
  induction l with
  | nil => intro x hx; exact absurd hx (List.not_mem_nil x)
  | cons a l ih =>
    intro x hx
    by_cases h : p a
    · rw [List.dropWhile_cons_of_pos h] at hx
      exact List.mem_cons_of_mem a (ih hx)
    · rw [List.dropWhile_cons_of_neg h] at hx
      exact hx

theorem mem_dropWhile_of_mem {p : SleepRec → Bool} :
    ∀ {l : List SleepRec} {x : SleepRec}, x ∈ l → p x = false → x ∈ l.dropWhile p := by
  intro l
  induction l with
  | nil => intro x hx _; exact absurd hx (List.not_mem_nil x)
  | cons a l ih =>
    intro x hx hp
    rcases List.mem_cons.mp hx with h1 | h2
    · subst h1
      rw [List.dropWhile_cons_of_neg (by rw [hp]; exact Bool.false_ne_true)]
      exact List.mem_cons_self x l
    · by_cases h : p a
      · rw [List.dropWhile_cons_of_pos h]
        exact ih h2 hp
      · rw [List.dropWhile_cons_of_neg h]
        exact List.mem_cons_of_mem a h2

theorem mem_takeWhile_and {p : SleepRec → Bool} :
    ∀ {l : List SleepRec} {x : SleepRec}, x ∈ l.takeWhile p → x ∈ l ∧ p x = true := by
  intro l
  induction l with
  | nil => intro x hx; exact absurd hx (List.not_mem_nil x)
  | cons a l ih =>
    intro x hx
    by_cases h : p a
    · rw [List.takeWhile_cons_of_pos h] at hx
      rcases List.mem_cons.mp hx with h1 | h2
      · subst h1; exact ⟨List.mem_cons_self x l, h⟩
      · rcases ih h2 with ⟨h3, h4⟩
        exact ⟨List.mem_cons_of_mem a h3, h4⟩
    · rw [List.takeWhile_cons_of_neg h] at hx
      exact absurd hx (List.not_mem_nil x)

theorem sorted_dropWhile (p : SleepRec → Bool) :
    ∀ {l : List SleepRec}, sortedByWake l = true → sortedByWake (l.dropWhile p) = true := by
  intro l
  induction l with
  | nil => intro _; rfl
  | cons a l ih =>
    intro h
    by_cases hp : p a
    · rw [List.dropWhile_cons_of_pos hp]
      exact ih (sortedByWake_tail h)
    · rw [List.dropWhile_cons_of_neg hp]
      exact h

/-!  Helper lemmas about the thread-list phases of `timer_interrupt`. -/

theorem bump_tid_status {st : KState} {th : Thread} (h : th ∈ bump_recent_cpu st) :
    ∃ th0, th0 ∈ st.threads ∧ th.tid = th0.tid ∧ th.status = th0.status := by
  unfold bump_recent_cpu at h
  by_cases hc : st.current = st.idle_tid
  · rw [if_pos hc] at h
    exact ⟨th, h, rfl, rfl⟩
  · rw [if_neg hc] at h
    rcases List.mem_map.mp h with ⟨th0, h0, heq⟩
    refine ⟨th0, h0, ?_⟩
    by_cases ht : th0.tid = st.current
    · rw [← heq, if_pos ht]; exact ⟨rfl, rfl⟩
    · rw [← heq, if_neg ht]; exact ⟨rfl, rfl⟩

theorem urc_tid_status {la : Int} {ts : List Thread} {th : Thread}
    (h : th ∈ update_recent_cpu_for_all_threads la ts) :
    ∃ th0, th0 ∈ ts ∧ th.tid = th0.tid ∧ th.status = th0.status := by
  rcases List.mem_map.mp h with ⟨th0, h0, heq⟩
  exact ⟨th0, h0, by rw [← heq]; exact ⟨rfl, rfl⟩⟩

theorem upd_prio_tid_status {idle : Nat} {ts : List Thread} {th : Thread}
    (h : th ∈ update_priority_for_all_threads idle ts) :
    ∃ th0, th0 ∈ ts ∧ th.tid = th0.tid ∧ th.status = th0.status := by
  rcases List.mem_map.mp h with ⟨th0, h0, heq⟩
  refine ⟨th0, h0, ?_⟩
  by_cases ht : th0.tid = idle
  · rw [← heq, if_pos ht]; exact ⟨rfl, rfl⟩
  · rw [← heq, if_neg ht]; exact ⟨rfl, rfl⟩

theorem post_priority_tid_status {st : KState} {th : Thread}
    (h : th ∈ post_priority_threads st) :
    ∃ th0, th0 ∈ st.threads ∧ th.tid = th0.tid ∧ th.status = th0.status := by
  unfold post_priority_threads at h
  have step2 : ∀ th2, th2 ∈ post_second_threads st →
      ∃ th0, th0 ∈ st.threads ∧ th2.tid = th0.tid ∧ th2.status = th0.status := by
    intro th2 h2
    unfold post_second_threads at h2
    by_cases hf : (st.ticks + 1) % TIMER_FREQ = 0
    · rw [if_pos hf] at h2
      rcases urc_tid_status h2 with ⟨th1, h1, ht, hs⟩
      rcases bump_tid_status h1 with ⟨th0, h0, ht0, hs0⟩
      exact ⟨th0, h0, ht.trans ht0, hs.trans hs0⟩
    · rw [if_neg hf] at h2
      exact bump_tid_status h2
  by_cases h4 : (st.ticks + 1) % 4 = 0
  · rw [if_pos h4] at h
    rcases upd_prio_tid_status h with ⟨th2, h2, ht, hs⟩
    rcases step2 th2 h2 with ⟨th0, h0, ht0, hs0⟩
    exact ⟨th0, h0, ht.trans ht0, hs.trans hs0⟩
  · rw [if_neg h4] at h
    exact step2 th h

theorem interrupt_ticks (st : KState) : (timer_interrupt st).ticks = st.ticks + 1 := rfl

theorem interrupt_sleep (st : KState) :
    (timer_interrupt st).sleep =
      st.sleep.dropWhile (fun r => decide (r.wake ≤ st.ticks + 1)) := by
  show (drainSleep (st.ticks + 1) st.sleep).2 = _
  rw [drainSleep_eq]

theorem interrupt_woken (st : KState) :
    (drainSleep (st.ticks + 1) st.sleep).1 =
      (st.sleep.takeWhile (fun r => decide (r.wake ≤ st.ticks + 1))).map
        (fun r => r.tid) := by
  rw [drainSleep_eq]

/- One interrupt keeps a thread whose every sleep record is still in the
future asleep: its record survives, and its status stays BLOCKED. -/
theorem interrupt_keep_blocked {st : KState} {t0 : Nat} {w : Int}
    (hw : st.ticks + 1 < w)
    (hmem : (⟨t0, w⟩ : SleepRec) ∈ st.sleep)
    (hall : ∀ r ∈ st.sleep, r.tid = t0 → r.wake = w)
    (hb : ∀ th ∈ st.threads, th.tid = t0 → th.status = TStatus.blocked) :
    ((⟨t0, w⟩ : SleepRec) ∈ (timer_interrupt st).sleep) ∧
    (∀ r ∈ (timer_interrupt st).sleep, r.tid = t0 → r.wake = w) ∧
    (∀ th ∈ (timer_interrupt st).threads, th.tid = t0 → th.status = TStatus.blocked) := by
  have hpred : (fun r : SleepRec => decide (r.wake ≤ st.ticks + 1)) ⟨t0, w⟩ = false := by
    simp [not_le.mpr hw]
  refine ⟨?_, ?_, ?_⟩
  · rw [interrupt_sleep]
    exact mem_dropWhile_of_mem hmem hpred
  · rw [interrupt_sleep]
    intro r hr
    exact hall r (mem_of_mem_dropWhile hr)
  · intro th hth htid
    have hnotw : t0 ∉ (drainSleep (st.ticks + 1) st.sleep).1 := by
      rw [interrupt_woken]
      intro hmem2
      rcases List.mem_map.mp hmem2 with ⟨r, hrtk, hrtid⟩
      rcases mem_takeWhile_and hrtk with ⟨hrl, hrp⟩
      have hw2 : r.wake = w := hall r hrl hrtid
      rw [decide_eq_true_eq] at hrp
      rw [hw2] at hrp
      exact absurd hrp (not_le.mpr hw)
    have hth2 : th ∈ setReady (drainSleep (st.ticks + 1) st.sleep).1
        (post_priority_threads st) := hth
    rcases List.mem_map.mp hth2 with ⟨th1, h1, heq⟩
    by_cases hmem1 : th1.tid ∈ (drainSleep (st.ticks + 1) st.sleep).1
    · exfalso
      rw [← heq, if_pos hmem1] at htid
      exact hnotw (htid ▸ hmem1)
    · rw [← heq, if_neg hmem1] at htid ⊢
      rcases post_priority_tid_status h1 with ⟨th0, h0, ht0, hs0⟩
      exact hs0.trans (hb th0 h0 (ht0 ▸ htid))

/- Iterated interrupts keep such a thread asleep while the counter stays
strictly below its wake tick. -/
theorem run_keep_blocked : ∀ (k : Nat) (st : KState) (t0 : Nat) (w : Int),
    st.ticks + k < w →
    ((⟨t0, w⟩ : SleepRec) ∈ st.sleep) →
    (∀ r ∈ st.sleep, r.tid = t0 → r.wake = w) →
    (∀ th ∈ st.threads, th.tid = t0 → th.status = TStatus.blocked) →
    ((⟨t0, w⟩ : SleepRec) ∈ (runTicks k st).sleep) ∧
    (∀ th ∈ (runTicks k st).threads, th.tid = t0 → th.status = TStatus.blocked) := by
  intro k
  induction k with
  | zero =>
    intro st t0 w _ hmem _ hb
    exact ⟨hmem, hb⟩
  | succ k ih =>
    intro st t0 w hw hmem hall hb
    have hw1 : st.ticks + 1 < w := by
      have : (0 : Int) ≤ (k : Int) := Int.natCast_nonneg k
      push_cast at hw
      omega
    rcases interrupt_keep_blocked hw1 hmem hall hb with ⟨hmem2, hall2, hb2⟩
    have hw2 : (timer_interrupt st).ticks + k < w := by
      rw [interrupt_ticks]
      push_cast at hw ⊢
      omega
    exact ih (timer_interrupt st) t0 w hw2 hmem2 hall2 hb2

/-!  Claims. -/

/-- C1: a thread that calls `timer_sleep` with `n > 0` while the tick counter
is `s` is not unblocked by the timer interrupt handler before the counter has
reached `s + n`: after any `k < n` further interrupts its sleep record
`(caller, s + n)` is still on the sleep list and its status is still
BLOCKED.  (The caller must not already have a record on the sleep list,
which is vacuously true since a sleeping thread cannot be running.) -/
theorem claim_C1_no_early_wake (st : KState) (n : Int) (k : Nat)
    (hn : 0 < n) (hk : (k : Int) < n)
    (hfresh : ∀ r ∈ st.sleep, r.tid ≠ st.current) :
    ((⟨st.current, st.ticks + n⟩ : SleepRec) ∈ (runTicks k (timer_sleep n st)).sleep) ∧
    (∀ th ∈ (runTicks k (timer_sleep n st)).threads,
      th.tid = st.current → th.status = TStatus.blocked) := by
  apply run_keep_blocked k (timer_sleep n st) st.current (st.ticks + n)
  · show st.ticks + (k : Int) < st.ticks + n
    omega
  · exact mem_insert_self st.sleep ⟨st.current, st.ticks + n⟩
  · intro r hr htid
    rcases mem_of_mem_insert hr with h1 | h2
    · rw [h1]
    · exact absurd htid (hfresh r h2)
  · intro th hth htid
    rcases List.mem_map.mp hth with ⟨th0, h0, heq⟩
    by_cases hc : th0.tid = st.current
    · rw [← heq, if_pos hc]
    · exfalso
      rw [← heq, if_neg hc] at htid
      exact hc htid

/-- Witness for C1 at a concrete input: one thread sleeps 2 ticks from tick 0;
after 1 interrupt its record is still queued and it is still blocked. -/
theorem claim_C1_witness :
    ((⟨0, 2⟩ : SleepRec) ∈
      (runTicks 1 (timer_sleep 2
        ⟨0, 0, false, true, 0, 5, [⟨0, TStatus.running, 31, 0, 0⟩], []⟩)).sleep) ∧
    ((⟨0, TStatus.blocked, 31, 0, 16384⟩ : Thread).status = TStatus.blocked) := by
  have h := claim_C1_no_early_wake
    ⟨0, 0, false, true, 0, 5, [⟨0, TStatus.running, 31, 0, 0⟩], []⟩ 2 1
    (by decide) (by decide) (by intro r hr; exact absurd hr (List.not_mem_nil r))
  refine ⟨by simpa using h.1, ?_⟩
  exact h.2 ⟨0, TStatus.blocked, 31, 0, 16384⟩ (by decide) rfl

/-- C2 counterexample: the source `timer_sleep` has no test on the sign of
its argument, so `sleep(0)` at tick 5 inserts a record with wake tick 5 into
the (previously empty) sleep list and blocks the caller — it does not return
immediately and it does change the sleep list. -/
theorem claim_C2_counterexample :
    (timer_sleep 0
      ⟨5, 0, false, true, 0, 7, [⟨0, TStatus.running, 31, 0, 0⟩], []⟩).sleep = [⟨0, 5⟩] ∧
    (⟨5, 0, false, true, 0, 7, [⟨0, TStatus.running, 31, 0, 0⟩], []⟩ : KState).sleep = [] ∧
    (timer_sleep 0
      ⟨5, 0, false, true, 0, 7, [⟨0, TStatus.running, 31, 0, 0⟩], []⟩).threads =
      [⟨0, TStatus.blocked, 31, 0, 0⟩] := by
  decide

/-- C2 amended: a call of the sleep operation with `n ≤ 0` behaves exactly
like one with positive `n`: the record `(caller, start + n)` — whose wake
tick is at most the current tick — is inserted into the sleep list and the
caller is blocked (to be unblocked by the next timer interrupt); the call
does not return immediately. -/
theorem claim_C2_sleeps_anyway (st : KState) (n : Int) (hn : n ≤ 0) :
    (timer_sleep n st).sleep = list_insert_ordered ⟨st.current, st.ticks + n⟩ st.sleep ∧
    (∀ th ∈ (timer_sleep n st).threads, th.tid = st.current →
      th.status = TStatus.blocked) ∧
    st.ticks + n ≤ st.ticks := by
  refine ⟨rfl, ?_, by omega⟩
  intro th hth htid
  rcases List.mem_map.mp hth with ⟨th0, h0, heq⟩
  by_cases hc : th0.tid = st.current
  · rw [← heq, if_pos hc]
  · exfalso
    rw [← heq, if_neg hc] at htid
    exact hc htid

/-- Witness for the amended C2 at `n = 0`. -/
theorem claim_C2_witness :
    (timer_sleep 0
      ⟨5, 0, false, true, 3, 7, [⟨3, TStatus.running, 31, 0, 0⟩], []⟩).sleep =
      list_insert_ordered ⟨3, 5 + 0⟩ [] ∧
    ((⟨3, TStatus.blocked, 31, 0, 0⟩ : Thread).status = TStatus.blocked) := by
  have h := claim_C2_sleeps_anyway
    ⟨5, 0, false, true, 3, 7, [⟨3, TStatus.running, 31, 0, 0⟩], []⟩ 0 (by decide)
  exact ⟨h.1, h.2.1 ⟨3, TStatus.blocked, 31, 0, 0⟩ (by decide) rfl⟩

/-- C3: on a timer interrupt the handler first increments the tick counter,
then walks the sleep list from the front, removing and unblocking exactly
the maximal front run of records whose wake tick is at most the new counter
(their threads become READY), and stops at the first record whose wake tick
is still in the future, leaving it and everything after it unchanged
(`dropWhile` of the original list). -/
theorem claim_C3_drain (st : KState) :
    (timer_interrupt st).ticks = st.ticks + 1 ∧
    (timer_interrupt st).sleep =
      st.sleep.dropWhile (fun r => decide (r.wake ≤ st.ticks + 1)) ∧
    (drainSleep (st.ticks + 1) st.sleep).1 =
      (st.sleep.takeWhile (fun r => decide (r.wake ≤ st.ticks + 1))).map
        (fun r => r.tid) ∧
    (∀ th ∈ (timer_interrupt st).threads,
      th.tid ∈ (drainSleep (st.ticks + 1) st.sleep).1 → th.status = TStatus.ready) := by
  refine ⟨interrupt_ticks st, interrupt_sleep st, interrupt_woken st, ?_⟩
  intro th hth hmem
  have hth2 : th ∈ setReady (drainSleep (st.ticks + 1) st.sleep).1
      (post_priority_threads st) := hth
  rcases List.mem_map.mp hth2 with ⟨th0, _, heq⟩
  by_cases hc : th0.tid ∈ (drainSleep (st.ticks + 1) st.sleep).1
  · rw [← heq, if_pos hc]
  · exfalso
    rw [← heq, if_neg hc] at hmem
    exact hc hmem

/-- Witness for C3: at tick 0, records with wake ticks 1 and 5 queued; the
interrupt drains exactly the first and marks thread 1 READY. -/
theorem claim_C3_witness :
    ((timer_interrupt
      ⟨0, 0, false, true, 0, 0,
        [⟨0, TStatus.running, 31, 0, 0⟩, ⟨1, TStatus.blocked, 31, 0, 0⟩,
          ⟨2, TStatus.blocked, 31, 0, 0⟩],
        [⟨1, 1⟩, ⟨2, 5⟩]⟩).ticks = 1) ∧
    ((⟨1, TStatus.ready, 31, 0, 0⟩ : Thread).status = TStatus.ready) := by
  have h := claim_C3_drain
    ⟨0, 0, false, true, 0, 0,
      [⟨0, TStatus.running, 31, 0, 0⟩, ⟨1, TStatus.blocked, 31, 0, 0⟩,
        ⟨2, TStatus.blocked, 31, 0, 0⟩],
      [⟨1, 1⟩, ⟨2, 5⟩]⟩
  refine ⟨by simpa using h.1, ?_⟩
  exact h.2.2.2 ⟨1, TStatus.ready, 31, 0, 0⟩ (by decide) (by decide)

/-- C4: the sleep list stays sorted by ascending wake tick and, among equal
wake ticks, by insertion order: inserting a record with the source's strict
comparator keeps the list sorted and places the new record exactly after
every element whose wake tick is ≤ its own (so after all equal ones already
present), and the interrupt drain (a `dropWhile`) keeps the list sorted. -/
theorem claim_C4_sleep_list_order (r : SleepRec) (l : List SleepRec) (t : Int)
    (h : sortedByWake l = true) :
    sortedByWake (list_insert_ordered r l) = true ∧
    list_insert_ordered r l =
      l.takeWhile (fun a => decide (a.wake ≤ r.wake)) ++
        r :: l.dropWhile (fun a => decide (a.wake ≤ r.wake)) ∧
    sortedByWake ((drainSleep t l).2) = true := by
  refine ⟨insert_sorted r h, insert_eq_take_drop l r, ?_⟩
  rw [drainSleep_eq]
  exact sorted_dropWhile _ h

/-- Witness for C4: inserting a record with wake tick 3 into a sorted list
already containing wake tick 3 places it after that record. -/
theorem claim_C4_witness :
    sortedByWake (list_insert_ordered ⟨9, 3⟩ [⟨1, 1⟩, ⟨2, 3⟩]) = true ∧
    list_insert_ordered (⟨9, 3⟩ : SleepRec) [⟨1, 1⟩, ⟨2, 3⟩] =
      [⟨1, 1⟩, ⟨2, 3⟩].takeWhile (fun a => decide (a.wake ≤ (⟨9, 3⟩ : SleepRec).wake)) ++
        ⟨9, 3⟩ :: [⟨1, 1⟩, ⟨2, 3⟩].dropWhile
          (fun a => decide (a.wake ≤ (⟨9, 3⟩ : SleepRec).wake)) ∧
    sortedByWake ((drainSleep 2 [⟨1, 1⟩, ⟨2, 3⟩]).2) = true :=
  claim_C4_sleep_list_order ⟨9, 3⟩ [⟨1, 1⟩, ⟨2, 3⟩] 2 (by decide)

/-!  Helper lemmas about tid/priority projections and the ready count. -/

theorem map_pair_eq (f : Thread → Thread)
    (hf : ∀ th, (f th).tid = th.tid ∧ (f th).priority = th.priority) :
    ∀ ts : List Thread,
      (ts.map f).map (fun th => (th.tid, th.priority)) =
        ts.map (fun th => (th.tid, th.priority)) := by
  intro ts
  induction ts with
  | nil => rfl
  | cons a ts ih =>
    simp only [List.map_cons, List.cons.injEq]
    exact ⟨by rw [(hf a).1, (hf a).2], ih⟩

theorem setReady_pair (w : List Nat) (ts : List Thread) :
    (setReady w ts).map (fun th => (th.tid, th.priority)) =
      ts.map (fun th => (th.tid, th.priority)) := by
  apply map_pair_eq
  intro th
  by_cases h : th.tid ∈ w
  · rw [if_pos h]; exact ⟨rfl, rfl⟩
  · rw [if_neg h]; exact ⟨rfl, rfl⟩

theorem bump_pair (st : KState) :
    (bump_recent_cpu st).map (fun th => (th.tid, th.priority)) =
      st.threads.map (fun th => (th.tid, th.priority)) := by
  unfold bump_recent_cpu
  by_cases hc : st.current = st.idle_tid
  · rw [if_pos hc]
  · rw [if_neg hc]
    apply map_pair_eq
    intro th
    by_cases h : th.tid = st.current
    · rw [if_pos h]; exact ⟨rfl, rfl⟩
    · rw [if_neg h]; exact ⟨rfl, rfl⟩

theorem urc_pair (la : Int) (ts : List Thread) :
    (update_recent_cpu_for_all_threads la ts).map (fun th => (th.tid, th.priority)) =
      ts.map (fun th => (th.tid, th.priority)) := by
  apply map_pair_eq
  intro th
  exact ⟨rfl, rfl⟩

theorem post_second_pair (st : KState) :
    (post_second_threads st).map (fun th => (th.tid, th.priority)) =
      st.threads.map (fun th => (th.tid, th.priority)) := by
  unfold post_second_threads
  by_cases hf : (st.ticks + 1) % TIMER_FREQ = 0
  · rw [if_pos hf, urc_pair, bump_pair]
  · rw [if_neg hf, bump_pair]

theorem count_foldl (idle : Nat) :
    ∀ (ts : List Thread) (c : Int),
      ts.foldl
        (fun c th =>
          if th.tid ≠ idle ∧ (th.status = TStatus.running ∨ th.status = TStatus.ready)
          then c + 1 else c) c =
      c + ((ts.filter fun th =>
        decide (th.tid ≠ idle ∧
          (th.status = TStatus.running ∨ th.status = TStatus.ready))).length : Int) := by
  intro ts
  induction ts with
  | nil => intro c; simp
  | cons a ts ih =>
    intro c
    by_cases hp : a.tid ≠ idle ∧ (a.status = TStatus.running ∨ a.status = TStatus.ready)
    · rw [List.foldl_cons, if_pos hp, ih,
        List.filter_cons_of_pos (by rw [decide_eq_true_eq]; exact hp),
        List.length_cons]
      push_cast
      omega
    · rw [List.foldl_cons, if_neg hp, ih,
        List.filter_cons_of_neg (by rw [decide_eq_true_eq]; exact hp)]

theorem count_filter_eq (idle : Nat) (ts : List Thread) :
    count_running_or_ready_threads1 idle ts =
      ((ts.filter fun th =>
        decide (th.tid ≠ idle ∧
          (th.status = TStatus.running ∨ th.status = TStatus.ready))).length : Int) := by
  unfold count_running_or_ready_threads1
  rw [count_foldl]
  omega

theorem count_map_eq (idle : Nat) (f : Thread → Thread)
    (hf : ∀ th, (f th).tid = th.tid ∧ (f th).status = th.status) :
    ∀ ts : List Thread,
      count_running_or_ready_threads1 idle (ts.map f) =
        count_running_or_ready_threads1 idle ts := by
  intro ts
  unfold count_running_or_ready_threads1
  rw [List.foldl_map]
  have hfun : (fun (c : Int) th =>
      if (f th).tid ≠ idle ∧
        ((f th).status = TStatus.running ∨ (f th).status = TStatus.ready)
      then c + 1 else c) =
    (fun (c : Int) th =>
      if th.tid ≠ idle ∧ (th.status = TStatus.running ∨ th.status = TStatus.ready)
      then c + 1 else c) := by
    funext c th
    by_cases hp : th.tid ≠ idle ∧ (th.status = TStatus.running ∨ th.status = TStatus.ready)
    · rw [if_pos hp, if_pos (by rw [(hf th).1, (hf th).2]; exact hp)]
    · rw [if_neg hp, if_neg (by rw [(hf th).1, (hf th).2]; exact hp)]
  rw [hfun]

theorem count_bump_eq (st : KState) :
    count_running_or_ready_threads1 st.idle_tid (bump_recent_cpu st) =
      count_running_or_ready_threads1 st.idle_tid st.threads := by
  unfold bump_recent_cpu
  by_cases hc : st.current = st.idle_tid
  · rw [if_pos hc]
  · rw [if_neg hc]
    apply count_map_eq
    intro th
    by_cases h : th.tid = st.current
    · rw [if_pos h]; exact ⟨rfl, rfl⟩
    · rw [if_neg h]; exact ⟨rfl, rfl⟩

theorem toInt32_eq_self {x : Int}
    (hlo : -2147483648 ≤ x) (hhi : x ≤ 2147483647) : toInt32 x = x := by
  unfold toInt32
  omega

/-- C5 counterexample: at tick 3→4 with `mlfqs = false`, the handler still
recomputes priorities: thread 1 (nice 0, recent_cpu 0, old priority 10) ends
up with priority 63.  The every-fourth-tick recomputation is therefore NOT
performed only when `mlfqs_mode` is true — the source never consults
`thread_mlfqs`. -/
theorem claim_C5_counterexample :
    ((⟨3, 0, false, true, 0, 0,
        [⟨0, TStatus.running, 31, 0, 0⟩, ⟨1, TStatus.ready, 10, 0, 0⟩], []⟩ :
        KState).mlfqs = false) ∧
    (((3 : Int) + 1) % 4 = 0) ∧
    ((timer_interrupt
        ⟨3, 0, false, true, 0, 0,
          [⟨0, TStatus.running, 31, 0, 0⟩, ⟨1, TStatus.ready, 10, 0, 0⟩], []⟩).threads.map
      (fun th => th.priority) = [31, 63]) ∧
    ((⟨3, 0, false, true, 0, 0,
        [⟨0, TStatus.running, 31, 0, 0⟩, ⟨1, TStatus.ready, 10, 0, 0⟩], []⟩ :
        KState).threads.map (fun th => th.priority) = [31, 10]) := by
  decide

/-- C5 amended: the every-fourth-tick priority recomputation is performed
when and only when the (incremented) tick counter is divisible by 4,
regardless of `mlfqs_mode`: the interrupt leaves every thread's priority
unchanged on other ticks, and applies `update_priority_for_all_threads`
exactly on multiples of 4. -/
theorem claim_C5_priority_gate (st : KState) :
    (timer_interrupt st).threads.map (fun th => (th.tid, th.priority)) =
      if (st.ticks + 1) % 4 = 0 then
        (update_priority_for_all_threads st.idle_tid (post_second_threads st)).map
          (fun th => (th.tid, th.priority))
      else st.threads.map (fun th => (th.tid, th.priority)) := by
  have h1 : (timer_interrupt st).threads =
      setReady (drainSleep (st.ticks + 1) st.sleep).1 (post_priority_threads st) := rfl
  rw [h1, setReady_pair]
  unfold post_priority_threads
  by_cases h4 : (st.ticks + 1) % 4 = 0
  · rw [if_pos h4, if_pos h4]
  · rw [if_neg h4, if_neg h4, post_second_pair]

/-- C6: exactly when the incremented tick counter is a multiple of
`TIMER_FREQ`, `LOAD_AVG` is reassigned the 17.14 fixed-point value
`(59/60)*load_avg + (1/60)*ready_threads`, where `ready_threads` counts the
threads that are RUNNING or READY and are not the idle thread (the filter
characterisation of `count_running_or_ready_threads1`). -/
theorem claim_C6_load_avg (st : KState) :
    ((st.ticks + 1) % TIMER_FREQ = 0 →
      (timer_interrupt st).load_avg =
        load_avg_spec (count_running_or_ready_threads1 st.idle_tid st.threads)
          st.load_avg) ∧
    ((st.ticks + 1) % TIMER_FREQ ≠ 0 → (timer_interrupt st).load_avg = st.load_avg) ∧
    (∀ (idle : Nat) (ts : List Thread),
      count_running_or_ready_threads1 idle ts =
        ((ts.filter fun th =>
          decide (th.tid ≠ idle ∧
            (th.status = TStatus.running ∨ th.status = TStatus.ready))).length : Int)) := by
  have hla : (timer_interrupt st).load_avg = new_load_avg st := rfl
  refine ⟨?_, ?_, count_filter_eq⟩
  · intro hf
    rw [hla]
    unfold new_load_avg
    rw [if_pos hf, count_bump_eq]
    rfl
  · intro hf
    rw [hla]
    unfold new_load_avg
    rw [if_neg hf]

/-- Witness for C6 at tick 99→100 with one non-idle READY thread. -/
theorem claim_C6_witness :
    (timer_interrupt
      ⟨99, 0, false, true, 0, 0,
        [⟨0, TStatus.running, 31, 0, 0⟩, ⟨1, TStatus.ready, 31, 0, 0⟩], []⟩).load_avg =
      load_avg_spec
        (count_running_or_ready_threads1 0
          [⟨0, TStatus.running, 31, 0, 0⟩, ⟨1, TStatus.ready, 31, 0, 0⟩]) 0 :=
  (claim_C6_load_avg
    ⟨99, 0, false, true, 0, 0,
      [⟨0, TStatus.running, 31, 0, 0⟩, ⟨1, TStatus.ready, 31, 0, 0⟩], []⟩).1
    (by decide)

/-- C7: on every tick the running thread's `recent_cpu` is incremented by
fixed-point one unless it is the idle thread (and unchanged if it is); and
exactly when the incremented counter is a multiple of `TIMER_FREQ`, every
thread (idle included) gets `recent_cpu := (2*load_avg)/(2*load_avg + 1) *
recent_cpu + nice` in fixed point, computed with the freshly stored
`load_avg`. -/
theorem claim_C7_recent_cpu (st : KState) :
    (st.current ≠ st.idle_tid →
      bump_recent_cpu st = st.threads.map (fun th =>
        if th.tid = st.current then
          { th with recent_cpu :=
              add_fixed_point_numbers th.recent_cpu (convert_int_to_fixed_point 1) }
        else th)) ∧
    (st.current = st.idle_tid → bump_recent_cpu st = st.threads) ∧
    ((st.ticks + 1) % TIMER_FREQ = 0 →
      post_second_threads st = (bump_recent_cpu st).map (fun th =>
        { th with recent_cpu :=
            recent_cpu_spec (new_load_avg st) th.recent_cpu th.nice })) ∧
    ((st.ticks + 1) % TIMER_FREQ ≠ 0 → post_second_threads st = bump_recent_cpu st) := by
  refine ⟨?_, ?_, ?_, ?_⟩
  · intro h
    unfold bump_recent_cpu
    rw [if_neg h]
    rfl
  · intro h
    unfold bump_recent_cpu
    rw [if_pos h]
  · intro h
    unfold post_second_threads
    rw [if_pos h]
    rfl
  · intro h
    unfold post_second_threads
    rw [if_neg h]

/-- Witness for C7 at tick 99→100 with a running non-idle thread. -/
theorem claim_C7_witness :
    (bump_recent_cpu
      ⟨99, 0, false, true, 1, 0,
        [⟨0, TStatus.ready, 31, 0, 0⟩, ⟨1, TStatus.running, 31, 0, 0⟩], []⟩ =
      [⟨0, TStatus.ready, 31, 0, 0⟩, ⟨1, TStatus.running, 31, 0, 0⟩].map (fun th =>
        if th.tid = 1 then
          { th with recent_cpu :=
              add_fixed_point_numbers th.recent_cpu (convert_int_to_fixed_point 1) }
        else th)) ∧
    (post_second_threads
      ⟨99, 0, false, true, 1, 0,
        [⟨0, TStatus.ready, 31, 0, 0⟩, ⟨1, TStatus.running, 31, 0, 0⟩], []⟩ =
      (bump_recent_cpu
        ⟨99, 0, false, true, 1, 0,
          [⟨0, TStatus.ready, 31, 0, 0⟩, ⟨1, TStatus.running, 31, 0, 0⟩], []⟩).map (fun th =>
        { th with recent_cpu :=
            (recent_cpu_spec
              (new_load_avg
                ⟨99, 0, false, true, 1, 0,
                  [⟨0, TStatus.ready, 31, 0, 0⟩, ⟨1, TStatus.running, 31, 0, 0⟩], []⟩)
              th.recent_cpu th.nice) })) :=
  ⟨(claim_C7_recent_cpu
      ⟨99, 0, false, true, 1, 0,
        [⟨0, TStatus.ready, 31, 0, 0⟩, ⟨1, TStatus.running, 31, 0, 0⟩], []⟩).1
      (by decide),
   (claim_C7_recent_cpu
      ⟨99, 0, false, true, 1, 0,
        [⟨0, TStatus.ready, 31, 0, 0⟩, ⟨1, TStatus.running, 31, 0, 0⟩], []⟩).2.2.1
      (by decide)⟩

/-- C8 counterexample: `update_priority_for_all_threads` skips the idle
thread.  With the idle thread (tid 0, nice 0, recent_cpu 0, priority 31) on
the all-list, the update leaves its priority at 31 although the clamped
formula value is 63 — so NOT every thread's priority is set to the formula. -/
theorem claim_C8_counterexample :
    update_priority_for_all_threads 0 [⟨0, TStatus.running, 31, 0, 0⟩] =
      [⟨0, TStatus.running, 31, 0, 0⟩] ∧
    calculate_priority 0 0 = 63 ∧
    (31 : Int) ≠ 63 := by
  decide

/-- C8 amended: every 4 ticks (the gate of `post_priority_threads`), each
thread OTHER THAN the idle thread gets `priority := PRI_MAX -
(recent_cpu / 4, converted to int) - nice * 2`, clamped to
`[PRI_MIN, PRI_MAX] = [0, 63]`; the result always lies in that range. -/
theorem claim_C8_priority_update (st : KState) :
    ((st.ticks + 1) % 4 = 0 →
      post_priority_threads st =
        update_priority_for_all_threads st.idle_tid (post_second_threads st)) ∧
    (∀ (idle : Nat) (ts : List Thread),
      update_priority_for_all_threads idle ts =
        ts.map fun th =>
          if th.tid = idle then th
          else { th with priority := calculate_priority th.recent_cpu th.nice }) ∧
    (∀ rc ni : Int,
      calculate_priority rc ni =
        max PRI_MIN (min PRI_MAX (PRI_MAX -
          convert_fixed_point_to_int_round_towards_zero
            (divide_fixed_point_number_by_int rc 4) - ni * 2)) ∧
      PRI_MIN ≤ calculate_priority rc ni ∧
      calculate_priority rc ni ≤ PRI_MAX) := by
  refine ⟨?_, fun idle ts => rfl, fun rc ni => ⟨rfl, ?_, ?_⟩⟩
  · intro h
    unfold post_priority_threads
    rw [if_pos h]
  · exact le_max_left _ _
  · apply max_le
    · norm_num [PRI_MIN, PRI_MAX]
    · exact min_le_left _ _

/-- Witness for the amended C8 at tick 3→4. -/
theorem claim_C8_witness :
    post_priority_threads
      ⟨3, 0, false, true, 0, 0,
        [⟨0, TStatus.running, 31, 0, 0⟩, ⟨1, TStatus.ready, 10, 0, 0⟩], []⟩ =
      update_priority_for_all_threads 0
        (post_second_threads
          ⟨3, 0, false, true, 0, 0,
            [⟨0, TStatus.running, 31, 0, 0⟩, ⟨1, TStatus.ready, 10, 0, 0⟩], []⟩) :=
  (claim_C8_priority_update
    ⟨3, 0, false, true, 0, 0,
      [⟨0, TStatus.running, 31, 0, 0⟩, ⟨1, TStatus.ready, 10, 0, 0⟩], []⟩).1
    (by decide)

/-- C9: for `n > 0` and interrupts enabled at entry (the function's asserted
precondition), `timer_sleep` leaves the interrupt level on its one exit path
equal to the level in force at entry — interrupts are re-enabled: the
function saves the level, disables, and restores the saved level before
returning. -/
theorem claim_C9_intr_level (st : KState) (n : Int) (hn : 0 < n)
    (hon : st.intr_on = true) :
    (timer_sleep n st).intr_on = st.intr_on ∧ (timer_sleep n st).intr_on = true :=
  ⟨rfl, hon⟩

/-- Witness for C9 at `n = 1`. -/
theorem claim_C9_witness :
    (timer_sleep 1
      ⟨0, 0, false, true, 0, 5, [⟨0, TStatus.running, 31, 0, 0⟩], []⟩).intr_on =
      (⟨0, 0, false, true, 0, 5, [⟨0, TStatus.running, 31, 0, 0⟩], []⟩ : KState).intr_on ∧
    (timer_sleep 1
      ⟨0, 0, false, true, 0, 5, [⟨0, TStatus.running, 31, 0, 0⟩], []⟩).intr_on = true :=
  claim_C9_intr_level
    ⟨0, 0, false, true, 0, 5, [⟨0, TStatus.running, 31, 0, 0⟩], []⟩ 1
    (by decide) (by decide)

/-- C10 counterexample: `n = -131072` satisfies the claim's hypothesis
(`n * 16384 = -2^31` fits in a 32-bit signed integer), but the
round-to-nearest conversion computes `x - 8192` which wraps around 32 bits,
and the round trip yields `131071`, not `-131072`. -/
theorem claim_C10_counterexample :
    ((-2147483648 : Int) ≤ (-131072 : Int) * 16384 ∧
      (-131072 : Int) * 16384 ≤ 2147483647) ∧
    convert_fixed_point_to_int_round_to_nearest
      (convert_int_to_fixed_point (-131072)) = 131071 ∧
    (131071 : Int) ≠ -131072 := by
  decide

/-- C10 amended: for every integer `n` with `n * 16384` in the 32-bit signed
range, the round-toward-zero conversion inverts `convert_int_to_fixed_point`;
the round-to-nearest conversion also does, except at the single in-range
point `n = -131072` (where its intermediate subtraction overflows). -/
theorem claim_C10_roundtrip (n : Int)
    (h1 : -2147483648 ≤ n * 16384) (h2 : n * 16384 ≤ 2147483647) :
    convert_fixed_point_to_int_round_towards_zero (convert_int_to_fixed_point n) = n ∧
    (-131072 < n →
      convert_fixed_point_to_int_round_to_nearest (convert_int_to_fixed_point n) = n) := by
  have hub : n ≤ 131071 := by omega
  have hlb : -131072 ≤ n := by omega
  have hc : convert_int_to_fixed_point n = n * 16384 := by
    unfold convert_int_to_fixed_point FIXED_POINT_FACTOR
    exact toInt32_eq_self h1 h2
  constructor
  · unfold convert_fixed_point_to_int_round_towards_zero FIXED_POINT_FACTOR
    rw [hc]
    exact Int.mul_tdiv_cancel n (by norm_num)
  · intro h3
    unfold convert_fixed_point_to_int_round_to_nearest FIXED_POINT_FACTOR
    rw [hc]
    by_cases hpos : 0 ≤ n
    · rw [if_pos (by positivity)]
      rw [toInt32_eq_self (by omega) (by omega)]
      rw [Int.tdiv_eq_ediv (by omega) (by norm_num)]
      omega
    · rw [if_neg (by omega)]
      rw [toInt32_eq_self (by omega) (by omega)]
      rw [show n * 16384 - 8192 = -((-n) * 16384 + 8192) by ring]
      rw [Int.neg_tdiv]
      rw [Int.tdiv_eq_ediv (by omega) (by norm_num)]
      omega

/-- Witness for the amended C10 at `n = -5`. -/
theorem claim_C10_witness :
    convert_fixed_point_to_int_round_towards_zero
      (convert_int_to_fixed_point (-5)) = -5 ∧
    (-131072 < (-5 : Int) →
      convert_fixed_point_to_int_round_to_nearest
        (convert_int_to_fixed_point (-5)) = -5) :=
  claim_C10_roundtrip (-5) (by decide) (by decide)
